import Mathlib

/-!
Shallow embedding of the swwws wallpaper-rotation daemon, covering the
rotation queue (`swwws-common/src/queue.rs`), the persisted-state restore
path and the tick/IPC dispatch logic (`swwws-daemon/src/main.rs`).

Image paths (`PathBuf`) are modelled as `String`.  The `rand::thread_rng`
shuffle is modelled by an explicit shuffle oracle `σ : List String →
List String` passed to every operation that may shuffle; theorems about
`Sorting.random` assume the oracle returns a permutation of its input,
which is what a real shuffle does.
-/

namespace Swwws

/-- `Sorting` from `queue.rs`. -/
inductive Sorting where
  | random
  | ascending
  | descending
deriving DecidableEq, Repr

/-- The `Queue` struct from `queue.rs`: `buffer` is the lookahead window,
`current` the image on screen, `tail` the history, `size` the configured
capacity, `images` the not-yet-buffered pool. -/
structure Queue where
  buffer : List String
  current : Option String
  tail : List String
  size : Nat
  sorting : Sorting
  images : List String
deriving DecidableEq, Repr

/-- Lexicographic comparison of character lists, by code point. -/
def charsLe : List Char → List Char → Bool
  | [], _ => true
  | _ :: _, [] => false
  | c :: cs, d :: ds =>
    if c.toNat < d.toNat then true
    else if d.toNat < c.toNat then false
    else charsLe cs ds

/-- Path comparison: lexicographic by code point, modelling the byte-wise
`Ord` of `PathBuf` on plain ASCII paths. -/
def pathLe (a b : String) : Bool := charsLe a.data b.data

/-- Stable insertion step for ascending sort (models `Vec::sort` on paths). -/
def insertAsc (x : String) : List String → List String
  | [] => [x]
  | y :: ys => if pathLe x y then x :: y :: ys else y :: insertAsc x ys

/-- Ascending lexical sort, models `images.sort()`. -/
def sortAsc : List String → List String
  | [] => []
  | x :: xs => insertAsc x (sortAsc xs)

/-- Insertion step for descending sort. -/
def insertDesc (x : String) : List String → List String
  | [] => [x]
  | y :: ys => if pathLe y x then x :: y :: ys else y :: insertDesc x ys

/-- Descending lexical sort, models `images.sort_by(|a, b| b.cmp(a))`. -/
def sortDesc : List String → List String
  | [] => []
  | x :: xs => insertDesc x (sortDesc xs)

/-- The `match self.sorting` dispatch used by `initialize` and `refill`:
random shuffles via the oracle `σ`, the ordered modes sort. -/
def sortImages (σ : List String → List String) : Sorting → List String → List String
  | Sorting.random, l => σ l
  | Sorting.ascending, l => sortAsc l
  | Sorting.descending, l => sortDesc l

/-- The `while buffer.len() < size && !images.is_empty()` loop of
`Queue::refill`: repeatedly pops the pool front onto the buffer back. -/
def fillFrom (size : Nat) (buffer pool : List String) : List String × List String :=
  match pool with
  | [] => (buffer, [])
  | x :: rest =>
    if buffer.length < size then fillFrom size (buffer ++ [x]) rest
    else (buffer, x :: rest)

/-- `Queue::refill`: top up the buffer from the pool; if buffer and pool
are then both empty but history is not, restart the cycle by re-sorting
the drained history into the pool and filling again. -/
def Queue.refill (σ : List String → List String) (q : Queue) : Queue :=
  let fp := fillFrom q.size q.buffer q.images
  if fp.1.isEmpty && fp.2.isEmpty && !q.tail.isEmpty then
    let restartImages := sortImages σ q.sorting q.tail
    let fp2 := fillFrom q.size [] restartImages
    { q with buffer := fp2.1, images := fp2.2, tail := [] }
  else
    { q with buffer := fp.1, images := fp.2 }

/-- `Queue::next`: push current onto history, pop the buffer front into
current, refill, and if current is still none but the buffer has items
(from cycling) pop one.  Returns the new state and the returned image. -/
def Queue.next (σ : List String → List String) (q : Queue) : Queue × Option String :=
  let q1 : Queue :=
    { q with tail := q.tail ++ q.current.toList
             current := q.buffer.head?
             buffer := q.buffer.tail }
  let q2 := q1.refill σ
  let q3 : Queue :=
    if q2.current.isNone && !q2.buffer.isEmpty then
      { q2 with current := q2.buffer.head?, buffer := q2.buffer.tail }
    else q2
  (q3, q3.current)

/-- `Queue::previous`: push current onto the buffer front, pop the
history back into current.  Returns the new state and the returned image. -/
def Queue.previous (q : Queue) : Queue × Option String :=
  let q1 : Queue :=
    { q with buffer := q.current.toList ++ q.buffer
             current := q.tail.getLast?
             tail := q.tail.dropLast }
  (q1, q1.current)

/-- `Queue::initialize`: sort the image set, pop the first image into
current, then refill the buffer. -/
def Queue.initializeImages (σ : List String → List String) (q : Queue) (images : List String) :
    Queue :=
  let sorted := sortImages σ q.sorting images
  let q1 : Queue :=
    match sorted with
    | [] => { q with images := [] }
    | x :: rest => { q with images := rest, current := some x }
  q1.refill σ

/-- `Queue::new`: fails on an empty image set, otherwise initializes. -/
def Queue.new (σ : List String → List String) (size : Nat) (sorting : Sorting)
    (images : List String) : Option Queue :=
  if images.isEmpty then none
  else
    some (Queue.initializeImages σ
      { buffer := [], current := none, tail := [], size := size,
        sorting := sorting, images := images } images)

/-- `Queue::current_image`. -/
def Queue.current_image (q : Queue) : Option String := q.current

/-- `Queue::current_position` (= history length). -/
def Queue.current_position (q : Queue) : Nat := q.tail.length

/-- `Queue::size()` the method (named `qsize` here because the struct
field is already called `size`). -/
def Queue.qsize (q : Queue) : Nat :=
  q.tail.length + q.buffer.length + (if q.current.isSome then 1 else 0)

/-- `Queue::get_all_images`: history, current, buffer, then pool. -/
def Queue.get_all_images (q : Queue) : List String :=
  q.tail ++ q.current.toList ++ q.buffer ++ q.images

/-- `Queue::set_position`: clears current/buffer/history, then rebuilds
from what is left in `self.images`, failing when `position` is not
below the length of that remaining pool. -/
def Queue.set_position (σ : List String → List String) (q : Queue) (position : Nat) :
    Queue × Bool :=
  let q1 : Queue := { q with current := none, buffer := [], tail := [] }
  let total_images := q1.images.length
  if total_images ≤ position then (q1, false)
  else
    let q2 : Queue :=
      { q1 with tail := q1.images.take position, images := q1.images.drop position }
    let q3 : Queue :=
      match q2.images with
      | [] => q2
      | x :: rest => { q2 with current := some x, images := rest }
    (q3.refill σ, true)

/-- Iterated `advance`: the queue after `k` calls to `Queue::next`. -/
def Queue.advanceIter (σ : List String → List String) (q : Queue) : Nat → Queue
  | 0 => q
  | k + 1 => ((Queue.advanceIter σ q k).next σ).1

/-- The shape of a queue that has advanced `k` steps into the sorted
list `L` without yet recycling its history: history holds the first `k`
images, `current` the `k`-th, and the lookahead window of capacity `s`
plus the pool hold the rest in order. -/
def EpochState (s : Nat) (L : List String) (k : Nat) (q : Queue) : Prop :=
  q.tail = L.take k ∧ q.current = L[k]? ∧
  q.buffer = (L.drop (k + 1)).take s ∧ q.images = (L.drop (k + 1)).drop s ∧
  q.size = s

/-! ## Daemon-side data model (`swwws-daemon/src/main.rs`, `state.rs`) -/

/-- `MonitorBehavior` from `swwws-common`. -/
inductive MonitorBehavior where
  | independent
  | synchronized
  | grouped (groups : List (List String))
deriving DecidableEq, Repr

/-- `std::mem::discriminant` comparison used by the Reload handler. -/
def MonitorBehavior.sameVariant : MonitorBehavior → MonitorBehavior → Bool
  | .independent, .independent => true
  | .synchronized, .synchronized => true
  | .grouped _, .grouped _ => true
  | _, _ => false

/-- Persisted `OutputState` from `state.rs` (timestamps omitted). -/
structure OutputState where
  current_image : Option String
  queue_position : Nat
  queue_size : Nat
  sorting : Sorting
  images : List String
deriving DecidableEq, Repr

/-- The per-output resolved configuration record (the fields of
`get_output_config` the daemon logic reads). -/
structure OutputCfg where
  path : Option String
  queue_size : Nat
  sorting : Sorting
  duration : Nat
deriving Repr

/-- The loaded `Config`: behavior settings plus the resolved per-output
settings function (`get_output_config`). -/
structure Config where
  monitor_behavior : MonitorBehavior
  monitor_groups : Option (List (List String))
  output : String → OutputCfg

/-- `Config::get_effective_monitor_behavior`: `Grouped` without a
`monitor_groups` list degrades to `Independent`. -/
def Config.get_effective_monitor_behavior (c : Config) : MonitorBehavior :=
  match c.monitor_behavior, c.monitor_groups with
  | .grouped _, some groups => .grouped groups
  | .grouped _, none => .independent
  | b, _ => b

/-- `MonitorGroup` from `main.rs`; `Instant` timers are absolute `Nat`
timestamps. -/
structure MonitorGroup where
  name : String
  outputs : List String
  queue : Queue
  timer : Nat

/-- The live `DaemonState` from `main.rs`.  `HashMap`s are association
lists; `persistent` models `persistent_state.get_output_state`. -/
structure DaemonState where
  queues : List (String × Queue)
  timers : List (String × Nat)
  groups : List MonitorGroup
  shared_queue : Option Queue
  shared_timer : Option Nat
  paused : Bool
  persistent : String → Option OutputState

/-- Association-list lookup (models `HashMap::get`). -/
def alistLookup {α : Type} (k : String) : List (String × α) → Option α
  | [] => none
  | (k', v) :: rest => if k' = k then some v else alistLookup k rest

/-- Association-list insert-or-replace (models `HashMap::insert`). -/
def alistInsert {α : Type} (k : String) (v : α) : List (String × α) → List (String × α)
  | [] => [(k, v)]
  | (k', v') :: rest =>
    if k' = k then (k, v) :: rest else (k', v') :: alistInsert k v rest

/-- The outside world as the daemon handlers observe it: the result of
`Config::load`, `check_swww_daemon`, `get_swww_outputs`,
`ImageDiscovery::discover_images`, and the clock. -/
structure Env where
  configLoad : Except String Config
  swwwDaemonOk : Bool
  swwwOutputs : Except String (List String)
  discover : String → Except String (List String)
  now : Nat

/-- `handle_next_for_output`: advance that output's own queue (always
writing the stepped queue back), and on a yielded image record the
wallpaper-apply call and reset that output's timer. -/
def handle_next_for_output (σ : List String → List String) (now : Nat)
    (st : DaemonState) (output : String) : DaemonState × List (String × String) :=
  match alistLookup output st.queues with
  | none => (st, [])
  | some q =>
    let r := q.next σ
    let st1 := { st with queues := alistInsert output r.1 st.queues }
    match r.2 with
    | some img =>
      ({ st1 with timers := alistInsert output now st1.timers }, [(output, img)])
    | none => (st1, [])

/-- `handle_previous_for_output`: retreat that output's own queue, and on
a yielded image record the wallpaper-apply call and reset its timer. -/
def handle_previous_for_output (now : Nat) (st : DaemonState) (output : String) :
    DaemonState × List (String × String) :=
  match alistLookup output st.queues with
  | none => (st, [])
  | some q =>
    let r := q.previous
    let st1 := { st with queues := alistInsert output r.1 st.queues }
    match r.2 with
    | some img =>
      ({ st1 with timers := alistInsert output now st1.timers }, [(output, img)])
    | none => (st1, [])

/-- `DaemonState::restore_queue_from_state`: skipped in synchronized
mode; Random snapshots are accepted when the recorded current image is
still among the discovered set (seeking to its index), ordered snapshots
when the discovered list equals the recorded list (seeking to the
recorded position). -/
def restore_queue_from_state (σ : List String → List String) (now : Nat)
    (st : DaemonState) (output : String) (discovered : List String) :
    DaemonState × Bool :=
  if st.shared_queue.isSome then (st, false)
  else
    match st.persistent output with
    | none => (st, false)
    | some saved =>
      match saved.sorting with
      | Sorting.random =>
        match saved.current_image with
        | none => (st, false)
        | some cur =>
          if discovered.contains cur then
            match Queue.new σ saved.queue_size saved.sorting discovered with
            | none => (st, false)
            | some q =>
              match discovered.findIdx? (fun s => s == cur) with
              | none => (st, false)
              | some position =>
                let r := q.set_position σ position
                if r.2 then
                  ({ st with queues := alistInsert output r.1 st.queues,
                             timers := alistInsert output now st.timers }, true)
                else (st, false)
          else (st, false)
      | _ =>
        if discovered = saved.images then
          match Queue.new σ saved.queue_size saved.sorting discovered with
          | none => (st, false)
          | some q =>
            let r := q.set_position σ saved.queue_position
            if r.2 then
              ({ st with queues := alistInsert output r.1 st.queues,
                         timers := alistInsert output now st.timers }, true)
            else (st, false)
        else (st, false)

/-- `initialize_output_queue_sync`: discover images, try the persisted
restore, otherwise build a fresh queue and apply its initial wallpaper. -/
def initialize_output_queue_sync (σ : List String → List String) (env : Env)
    (config : Config) (st : DaemonState) (output : String) :
    DaemonState × List (String × String) :=
  let cfg := config.output output
  match cfg.path with
  | none => (st, [])
  | some path =>
    match env.discover path with
    | .error _ => (st, [])
    | .ok discovered =>
      let r := restore_queue_from_state σ env.now st output discovered
      if r.2 then (r.1, [])
      else
        match Queue.new σ cfg.queue_size cfg.sorting discovered with
        | none => (r.1, [])
        | some q =>
          let st1 : DaemonState :=
            { r.1 with queues := alistInsert output q r.1.queues,
                       timers := alistInsert output env.now r.1.timers }
          match q.current_image with
          | some img => (st1, [(output, img)])
          | none => (st1, [])

/-- The group-construction loop of `initialize_monitor_behavior`
(`Grouped` arm): per group, pick the first member that is a live output
with a configured path; discovery failure aborts with the state built so
far, an empty `Queue::new` just skips the group. -/
def initGroupsLoop (σ : List String → List String) (env : Env) (config : Config)
    (swwwOutputs : List String) :
    List (List String) → Nat → DaemonState → Except (String × DaemonState) DaemonState
  | [], _, st => .ok st
  | groupOutputs :: rest, idx, st =>
    let groupName := "group_" ++ toString idx
    match groupOutputs.find?
        (fun o => swwwOutputs.contains o && (config.output o).path.isSome) with
    | none => initGroupsLoop σ env config swwwOutputs rest (idx + 1) st
    | some o =>
      match (config.output o).path with
      | none => initGroupsLoop σ env config swwwOutputs rest (idx + 1) st
      | some path =>
        match env.discover path with
        | .error e =>
          .error ("Failed to discover images for group " ++ groupName ++ ": " ++ e, st)
        | .ok discovered =>
          match Queue.new σ (config.output o).queue_size (config.output o).sorting
              discovered with
          | none => initGroupsLoop σ env config swwwOutputs rest (idx + 1) st
          | some q =>
            let g : MonitorGroup :=
              { name := groupName,
                outputs := groupOutputs.filter (fun o2 => swwwOutputs.contains o2),
                queue := q, timer := env.now }
            initGroupsLoop σ env config swwwOutputs rest (idx + 1)
              { st with groups := st.groups ++ [g] }

/-- `initialize_monitor_behavior`: nothing for Independent, one shared
queue from the first output's path for Synchronized, the group loop for
Grouped.  Errors carry the (possibly already mutated) state. -/
def initialize_monitor_behavior (σ : List String → List String) (env : Env)
    (config : Config) (st : DaemonState) (swwwOutputs : List String) :
    Except (String × DaemonState) DaemonState :=
  match config.get_effective_monitor_behavior with
  | .independent => .ok st
  | .synchronized =>
    match swwwOutputs.head? with
    | none => .error ("No display outputs available for synchronized mode", st)
    | some first =>
      match (config.output first).path with
      | none => .error ("No wallpaper path configured for synchronized mode", st)
      | some path =>
        match env.discover path with
        | .error e =>
          .error ("Failed to discover images for synchronized mode: " ++ e, st)
        | .ok discovered =>
          match Queue.new σ (config.output first).queue_size
              (config.output first).sorting discovered with
          | some q =>
            .ok { st with shared_queue := some q, shared_timer := some env.now }
          | none => .ok st
  | .grouped groups => initGroupsLoop σ env config swwwOutputs groups 0 st

/-- `reinitialize_daemon_state_sync`: clear everything except the pause
flag, rebuild the behavior structures, then (re)apply wallpapers and
build per-output queues as the behavior dictates. -/
def reinitialize_daemon_state_sync (σ : List String → List String) (env : Env)
    (config : Config) (st : DaemonState) (swwwOutputs : List String) :
    Except (String × DaemonState) (DaemonState × List (String × String)) :=
  let st0 : DaemonState :=
    { st with queues := [], timers := [], groups := [],
              shared_queue := none, shared_timer := none }
  match initialize_monitor_behavior σ env config st0 swwwOutputs with
  | .error e => .error e
  | .ok st1 =>
    match config.get_effective_monitor_behavior with
    | .independent =>
      .ok (swwwOutputs.foldl (fun acc o =>
        let r := initialize_output_queue_sync σ env config acc.1 o
        (r.1, acc.2 ++ r.2)) (st1, []))
    | .synchronized =>
      match st1.shared_queue with
      | some q =>
        match q.current_image with
        | some img => .ok (st1, swwwOutputs.map (fun o => (o, img)))
        | none => .ok (st1, [])
      | none => .ok (st1, [])
    | .grouped _ =>
      let groupCalls := st1.groups.foldl (fun acc g =>
        match g.queue.current_image with
        | some img => acc ++ g.outputs.map (fun o => (o, img))
        | none => acc) []
      .ok (swwwOutputs.foldl (fun acc o =>
        if acc.1.groups.any (fun g => g.outputs.contains o) then acc
        else
          let r := initialize_output_queue_sync σ env config acc.1 o
          (r.1, acc.2 ++ r.2)) (st1, groupCalls))

/-- The behavior the IPC dispatcher infers from live daemon state
(shared queue present ⇒ synchronized; non-empty groups ⇒ grouped;
otherwise independent). -/
def DaemonState.inferBehavior (st : DaemonState) : MonitorBehavior :=
  if st.shared_queue.isSome then .synchronized
  else if !st.groups.isEmpty then .grouped (st.groups.map (fun g => g.outputs))
  else .independent

/-! ## IPC protocol and dispatcher -/

/-- `IpcCommand` from `ipc.rs`. -/
inductive IpcCommand where
  | next (output : Option String)
  | previous (output : Option String)
  | pause
  | resume
  | togglePause
  | reload
  | status
deriving DecidableEq, Repr

/-- One per-output `Status` record. -/
structure OutputStatus where
  name : String
  current_image : Option String
  queue_position : Nat
  queue_size : Nat
  timer_remaining : Option Nat
  paused : Bool
deriving DecidableEq, Repr

/-- `IpcResponse` from `ipc.rs`. -/
inductive IpcResponse where
  | success (message : String)
  | error (message : String)
  | status (outputs : List OutputStatus) (paused : Bool)
deriving DecidableEq, Repr

/-- `Path::file_name` as used when reporting status. -/
def fileName (p : String) : String := ((p.splitOn "/").getLast?).getD p

/-- `Next` with no target output: dispatch on the behavior inferred from
live state.  Independent advances each output's queue; synchronized
advances the shared queue and applies to every known output (falling
back to the queue keys if outputs cannot be listed); grouped advances
each group and then the ungrouped independents. -/
def handle_next_all (σ : List String → List String) (env : Env) (st : DaemonState) :
    DaemonState × List (String × String) :=
  match st.inferBehavior with
  | .synchronized =>
    match st.shared_queue with
    | none => (st, [])
    | some q =>
      let r := q.next σ
      let st1 : DaemonState := { st with shared_queue := some r.1 }
      match r.2 with
      | none => (st1, [])
      | some img =>
        let fromSwww := match env.swwwOutputs with
          | .ok l => l
          | .error _ => []
        let outs := if fromSwww.isEmpty then st1.queues.map Prod.fst else fromSwww
        ({ st1 with shared_timer := some env.now }, outs.map (fun o => (o, img)))
  | .grouped _ =>
    let stepped := st.groups.foldl (fun acc g =>
      let r := g.queue.next σ
      match r.2 with
      | some img =>
        (acc.1 ++ [{ g with queue := r.1, timer := env.now }],
         acc.2 ++ g.outputs.map (fun o => (o, img)))
      | none => (acc.1 ++ [{ g with queue := r.1 }], acc.2)) ([], [])
    let st1 : DaemonState := { st with groups := stepped.1 }
    (st1.queues.map Prod.fst).foldl (fun acc o =>
      if acc.1.groups.any (fun g => g.outputs.contains o) then acc
      else
        let r := handle_next_for_output σ env.now acc.1 o
        (r.1, acc.2 ++ r.2)) (st1, stepped.2)
  | .independent =>
    (st.queues.map Prod.fst).foldl (fun acc o =>
      let r := handle_next_for_output σ env.now acc.1 o
      (r.1, acc.2 ++ r.2)) (st, [])

/-- `Previous` with no target output (note: the synchronized arm has no
fallback to queue keys when output listing fails). -/
def handle_previous_all (env : Env) (st : DaemonState) :
    DaemonState × List (String × String) :=
  match st.inferBehavior with
  | .synchronized =>
    match st.shared_queue with
    | none => (st, [])
    | some q =>
      let r := q.previous
      let st1 : DaemonState := { st with shared_queue := some r.1 }
      match r.2 with
      | none => (st1, [])
      | some img =>
        let outs := match env.swwwOutputs with
          | .ok l => l
          | .error _ => []
        ({ st1 with shared_timer := some env.now }, outs.map (fun o => (o, img)))
  | .grouped _ =>
    let stepped := st.groups.foldl (fun acc g =>
      let r := g.queue.previous
      match r.2 with
      | some img =>
        (acc.1 ++ [{ g with queue := r.1, timer := env.now }],
         acc.2 ++ g.outputs.map (fun o => (o, img)))
      | none => (acc.1 ++ [{ g with queue := r.1 }], acc.2)) ([], [])
    let st1 : DaemonState := { st with groups := stepped.1 }
    (st1.queues.map Prod.fst).foldl (fun acc o =>
      if acc.1.groups.any (fun g => g.outputs.contains o) then acc
      else
        let r := handle_previous_for_output env.now acc.1 o
        (r.1, acc.2 ++ r.2)) (st1, stepped.2)
  | .independent =>
    (st.queues.map Prod.fst).foldl (fun acc o =>
      let r := handle_previous_for_output env.now acc.1 o
      (r.1, acc.2 ++ r.2)) (st, [])

/-- The validated tail of the `Reload` arm: liveness check, output
enumeration, then either a config-only acknowledgment (same behavior
variant) or a full state rebuild. -/
def handle_reload_checked (σ : List String → List String) (env : Env)
    (st : DaemonState) (newConfig : Config) :
    DaemonState × IpcResponse × List (String × String) :=
  if !env.swwwDaemonOk then
    (st, .error "Cannot reload: swww daemon not accessible", [])
  else
    match env.swwwOutputs with
    | .error e => (st, .error ("Cannot reload: failed to get swww outputs: " ++ e), [])
    | .ok outs =>
      if outs.isEmpty then (st, .error "Cannot reload: no swww outputs available", [])
      else
        let currentBehavior := st.inferBehavior
        let newBehavior := newConfig.get_effective_monitor_behavior
        if currentBehavior.sameVariant newBehavior then
          (st, .success "Configuration reloaded successfully", [])
        else
          match reinitialize_daemon_state_sync σ env newConfig st outs with
          | .error e =>
            (e.2, .error ("Failed to reinitialize daemon state: " ++ e.1), [])
          | .ok r =>
            (r.1, .success
              "Configuration reloaded and daemon state reinitialized for new monitor behavior",
             r.2)

/-- The per-output records of the `Status` response. -/
def ipc_status (env : Env) (config : Config) (st : DaemonState) : List OutputStatus :=
  match st.inferBehavior with
  | .independent =>
    st.queues.map (fun p =>
      let elapsed := match alistLookup p.1 st.timers with
        | some t => env.now - t
        | none => 0
      let dur := (config.output p.1).duration
      { name := p.1,
        current_image := p.2.current_image.map fileName,
        queue_position := p.2.current_position,
        queue_size := p.2.qsize,
        timer_remaining := some (if dur ≤ elapsed then 0 else dur - elapsed),
        paused := st.paused })
  | .synchronized =>
    let swwwOutputs := match env.swwwOutputs with
      | .ok l => l
      | .error _ => []
    match st.shared_queue with
    | none => []
    | some q =>
      let elapsed := match st.shared_timer with
        | some t => env.now - t
        | none => 0
      let dur := match swwwOutputs.head? with
        | some f => (config.output f).duration
        | none => 300
      swwwOutputs.map (fun o =>
        { name := o ++ " (sync)",
          current_image := q.current_image.map fileName,
          queue_position := q.current_position,
          queue_size := q.qsize,
          timer_remaining := some (if dur ≤ elapsed then 0 else dur - elapsed),
          paused := st.paused })
  | .grouped _ =>
    let groupStatuses := st.groups.foldl (fun acc g =>
      let elapsed := env.now - g.timer
      let dur := match g.outputs.head? with
        | some f => (config.output f).duration
        | none => 300
      acc ++ g.outputs.map (fun o =>
        { name := o ++ " (" ++ g.name ++ ")",
          current_image := g.queue.current_image.map fileName,
          queue_position := g.queue.current_position,
          queue_size := g.queue.qsize,
          timer_remaining := some (if dur ≤ elapsed then 0 else dur - elapsed),
          paused := st.paused })) []
    groupStatuses ++ (st.queues.filter
      (fun p => !st.groups.any (fun g => g.outputs.contains p.1))).map (fun p =>
      let elapsed := match alistLookup p.1 st.timers with
        | some t => env.now - t
        | none => 0
      let dur := (config.output p.1).duration
      { name := p.1 ++ " (independent)",
        current_image := p.2.current_image.map fileName,
        queue_position := p.2.current_position,
        queue_size := p.2.qsize,
        timer_remaining := some (if dur ≤ elapsed then 0 else dur - elapsed),
        paused := st.paused })

/-- `handle_ipc_command`: loads the configuration first (every command),
then dispatches.  Returns the new state, the response, and the wallpaper
apply calls issued. -/
def handle_ipc_command (σ : List String → List String) (env : Env)
    (st : DaemonState) (command : IpcCommand) :
    DaemonState × IpcResponse × List (String × String) :=
  match env.configLoad with
  | .error e => (st, .error ("Failed to load config: " ++ e), [])
  | .ok config =>
    match command with
    | .next output =>
      match output with
      | some o =>
        let r := handle_next_for_output σ env.now st o
        (r.1, .success "Next wallpaper set", r.2)
      | none =>
        let r := handle_next_all σ env st
        (r.1, .success "Next wallpaper set", r.2)
    | .previous output =>
      match output with
      | some o =>
        let r := handle_previous_for_output env.now st o
        (r.1, .success "Previous wallpaper set", r.2)
      | none =>
        let r := handle_previous_all env st
        (r.1, .success "Previous wallpaper set", r.2)
    | .pause => ({ st with paused := true }, .success "Slideshow paused", [])
    | .resume => ({ st with paused := false }, .success "Slideshow resumed", [])
    | .togglePause =>
      let p := !st.paused
      ({ st with paused := p },
       .success ("Slideshow " ++ (if p then "paused" else "resumed")), [])
    | .reload =>
      match env.configLoad with
      | .error e => (st, .error ("Failed to reload configuration: " ++ e), [])
      | .ok newConfig =>
        match newConfig.get_effective_monitor_behavior with
        | .grouped groups =>
          if groups.isEmpty then
            (st, .error "Invalid config: grouped behavior with empty groups", [])
          else handle_reload_checked σ env st newConfig
        | _ => handle_reload_checked σ env st newConfig
    | .status => (st, .status (ipc_status env config st) st.paused, [])

/-! ## Scheduler tick loop -/

/-- Per-tick environment: resolved configuration, live outputs, the
outcome of the liveness check (after its one retry), whether the
non-blocking state lock was obtained, and the clock. -/
structure TickCtx where
  config : Config
  swwwOutputs : List String
  swwwOk : Bool
  lockOk : Bool
  now : Nat

/-- The two counters of the main loop. -/
structure LoopCounters where
  saveCounter : Nat
  swwwCheckCounter : Nat
deriving DecidableEq, Repr

/-- What a tick did: whether the liveness check ran, which wallpaper
applies were dispatched, and whether the periodic state save ran. -/
structure TickEffects where
  livenessChecked : Bool
  wallpapers : List (String × String)
  saved : Bool
deriving DecidableEq, Repr

/-- The rotation-check step of the tick loop: collect expired per-output
timers, then rotate per the configured behavior. -/
def tick_rotations (σ : List String → List String) (ctx : TickCtx)
    (st : DaemonState) : DaemonState × List (String × String) :=
  let expired := (st.timers.filter
    (fun p => (ctx.config.output p.1).duration ≤ ctx.now - p.2)).map Prod.fst
  match ctx.config.get_effective_monitor_behavior with
  | .independent =>
    expired.foldl (fun acc o =>
      let r := handle_next_for_output σ ctx.now acc.1 o
      (r.1, acc.2 ++ r.2)) (st, [])
  | .synchronized =>
    match st.shared_timer with
    | none => (st, [])
    | some t =>
      let dur := (ctx.config.output (ctx.swwwOutputs.headD "")).duration
      if dur ≤ ctx.now - t then
        match st.shared_queue with
        | none => (st, [])
        | some q =>
          let r := q.next σ
          let st1 : DaemonState := { st with shared_queue := some r.1 }
          match r.2 with
          | some img =>
            ({ st1 with shared_timer := some ctx.now },
             ctx.swwwOutputs.map (fun o => (o, img)))
          | none => (st1, [])
      else (st, [])
  | .grouped _ =>
    let stepped := st.groups.foldl (fun acc g =>
      let dur := match g.outputs.head? with
        | some f => (ctx.config.output f).duration
        | none => 300
      if dur ≤ ctx.now - g.timer then
        let r := g.queue.next σ
        match r.2 with
        | some img =>
          (acc.1 ++ [{ g with queue := r.1, timer := ctx.now }],
           acc.2 ++ g.outputs.map (fun o => (o, img)))
        | none => (acc.1 ++ [{ g with queue := r.1 }], acc.2)
      else (acc.1 ++ [g], acc.2)) ([], [])
    let st1 : DaemonState := { st with groups := stepped.1 }
    expired.foldl (fun acc o =>
      if acc.1.groups.any (fun g => g.outputs.contains o) then acc
      else
        let r := handle_next_for_output σ ctx.now acc.1 o
        (r.1, acc.2 ++ r.2)) (st1, stepped.2)

/-- `save_state`: sync every individual queue with a current image into
the persisted snapshot (the file write itself is outside the model). -/
def save_state (st : DaemonState) : DaemonState :=
  { st with persistent := fun o =>
      match alistLookup o st.queues with
      | some q =>
        match q.current_image with
        | some img =>
          some { current_image := some img, queue_position := q.current_position,
                 queue_size := q.qsize, sorting := q.sorting,
                 images := q.get_all_images }
        | none => st.persistent o
      | none => st.persistent o }

/-- One iteration of the main timer loop: bump counters, run the
liveness check every 30 ticks (a final failure skips the rest of the
tick), skip the tick when the lock is contended, skip rotation and save
when paused, otherwise rotate and save every 30 ticks. -/
def tick (σ : List String → List String) (ctx : TickCtx) (st : DaemonState)
    (c : LoopCounters) : DaemonState × LoopCounters × TickEffects :=
  let saveCounter := c.saveCounter + 1
  let checkCounter0 := c.swwwCheckCounter + 1
  let doCheck : Bool := 30 ≤ checkCounter0
  let checkCounter := if doCheck then 0 else checkCounter0
  if doCheck && !ctx.swwwOk then
    (st, ⟨saveCounter, checkCounter⟩,
     { livenessChecked := true, wallpapers := [], saved := false })
  else if !ctx.lockOk then
    (st, ⟨saveCounter, checkCounter⟩,
     { livenessChecked := doCheck, wallpapers := [], saved := false })
  else if st.paused then
    (st, ⟨saveCounter, checkCounter⟩,
     { livenessChecked := doCheck, wallpapers := [], saved := false })
  else
    let r := tick_rotations σ ctx st
    if 30 ≤ saveCounter then
      (save_state r.1, ⟨0, checkCounter⟩,
       { livenessChecked := doCheck, wallpapers := r.2, saved := true })
    else
      (r.1, ⟨saveCounter, checkCounter⟩,
       { livenessChecked := doCheck, wallpapers := r.2, saved := false })

end Swwws

namespace Swwws

/-! ## Concrete fixtures used by witnesses and counterexamples -/

/-- A daemon state with nothing in it. -/
def stEmpty : DaemonState :=
  { queues := [], timers := [], groups := [], shared_queue := none,
    shared_timer := none, paused := false, persistent := fun _ => none }

/-- A resolved configuration: every output gets path `/w`, capacity 10,
ascending sorting, 300 second rotation. -/
def cfgAsc : Config :=
  { monitor_behavior := .independent, monitor_groups := none,
    output := fun _ =>
      { path := some "/w", queue_size := 10, sorting := .ascending,
        duration := 300 } }

/-- A configuration whose effective behavior is `Grouped` with zero groups. -/
def cfgGroupedEmpty : Config :=
  { cfgAsc with monitor_behavior := .grouped [], monitor_groups := some [] }

/-- The persisted snapshot of the restart-reconciliation scenario:
ascending, images `[a, b, c]`, position 1 (current was `b`), recorded
`queue_size` 3 (what `save_state` records via `Queue::size()` for a
three-image queue). -/
def snapshotC4 : OutputState :=
  { current_image := some "/w/b.jpg", queue_position := 1, queue_size := 3,
    sorting := .ascending, images := ["/w/a.jpg", "/w/b.jpg", "/w/c.jpg"] }

/-- Daemon state holding only that persisted snapshot for output `DP-1`. -/
def stC4 : DaemonState :=
  { stEmpty with persistent := fun o => if o = "DP-1" then some snapshotC4 else none }

/-- Environment whose discovery returns exactly the snapshot's images. -/
def envC4 : Env :=
  { configLoad := .ok cfgAsc, swwwDaemonOk := true, swwwOutputs := .ok ["DP-1"],
    discover := fun _ => .ok ["/w/a.jpg", "/w/b.jpg", "/w/c.jpg"], now := 100 }

/-- Same environment but image `c` has been removed from disk. -/
def envC4b : Env := { envC4 with discover := fun _ => .ok ["/w/a.jpg", "/w/b.jpg"] }

/-- A freshly built three-image ascending queue (capacity 10). -/
def queueAsc3 : Queue :=
  { buffer := ["/w/b.jpg", "/w/c.jpg"], current := some "/w/a.jpg", tail := [],
    size := 10, sorting := .ascending, images := [] }

/-- A paused daemon state with one independent output due for rotation. -/
def stC5 : DaemonState :=
  { stEmpty with queues := [("DP-1", queueAsc3)], timers := [("DP-1", 0)],
                 paused := true }

/-- Tick context: lock obtained, external service alive, timer expired. -/
def ctxC5 : TickCtx :=
  { config := cfgAsc, swwwOutputs := ["DP-1"], swwwOk := true, lockOk := true,
    now := 1000 }

/-- Two-output daemon state for the targeted Next/Previous claims. -/
def stC9 : DaemonState :=
  { stEmpty with
      queues := [("A", queueAsc3),
                 ("B", { buffer := [], current := some "/w/c.jpg", tail := [],
                         size := 1, sorting := .ascending, images := [] })],
      timers := [("A", 0), ("B", 0)] }

/-- Environment with a healthy service and successful config load. -/
def envOk : Env :=
  { configLoad := .ok cfgAsc, swwwDaemonOk := true, swwwOutputs := .ok ["A", "B"],
    discover := fun _ => .ok [], now := 5 }

end Swwws


namespace Swwws

/-! ## Basic list and queue lemmas -/

theorem headToList_append_tail {α : Type} (l : List α) :
    l.head?.toList ++ l.tail = l := by
  cases l <;> rfl

theorem dropLast_append_getLastToList {α : Type} (l : List α) :
    l.dropLast ++ l.getLast?.toList = l := by
  induction l with
  | nil => rfl
  | cons x xs ih =>
    cases xs with
    | nil => rfl
    | cons y ys =>
      simpa [List.dropLast_cons_of_ne_nil, List.getLast?_cons_cons] using ih

theorem fillFrom_eq (s : Nat) (pool : List String) : ∀ buffer : List String,
    fillFrom s buffer pool =
      (buffer ++ pool.take (s - buffer.length), pool.drop (s - buffer.length)) := by
  induction pool with
  | nil => intro buffer; simp [fillFrom]
  | cons x rest ih =>
    intro buffer
    by_cases h : buffer.length < s
    · have h1 : s - buffer.length = (s - (buffer.length + 1)) + 1 := by omega
      rw [fillFrom, if_pos h, ih]
      simp [h1, List.take_succ_cons, List.drop_succ_cons]
    · have h0 : s - buffer.length = 0 := by omega
      rw [fillFrom, if_neg h, h0]
      simp

theorem fillFrom_append (s : Nat) (buffer pool : List String) :
    (fillFrom s buffer pool).1 ++ (fillFrom s buffer pool).2 = buffer ++ pool := by
  rw [fillFrom_eq]
  simp [List.append_assoc]

theorem insertAsc_perm (x : String) (l : List String) :
    List.Perm (insertAsc x l) (x :: l) := by
  induction l with
  | nil => simp [insertAsc]
  | cons y ys ih =>
    rw [insertAsc]
    split
    · exact List.Perm.refl _
    · exact ((ih.cons y).trans (List.Perm.swap x y ys))

theorem sortAsc_perm (l : List String) : List.Perm (sortAsc l) l := by
  induction l with
  | nil => exact List.Perm.refl _
  | cons x xs ih => exact (insertAsc_perm x (sortAsc xs)).trans (ih.cons x)

theorem insertDesc_perm (x : String) (l : List String) :
    List.Perm (insertDesc x l) (x :: l) := by
  induction l with
  | nil => simp [insertDesc]
  | cons y ys ih =>
    rw [insertDesc]
    split
    · exact List.Perm.refl _
    · exact ((ih.cons y).trans (List.Perm.swap x y ys))

theorem sortDesc_perm (l : List String) : List.Perm (sortDesc l) l := by
  induction l with
  | nil => exact List.Perm.refl _
  | cons x xs ih => exact (insertDesc_perm x (sortDesc xs)).trans (ih.cons x)

theorem sortImages_perm (σ : List String → List String)
    (hσ : ∀ l, List.Perm (σ l) l) (srt : Sorting) (l : List String) :
    List.Perm (sortImages σ srt l) l := by
  cases srt with
  | random => exact hσ l
  | ascending => exact sortAsc_perm l
  | descending => exact sortDesc_perm l

theorem alistLookup_insert_ne {α : Type} (k k' : String) (v : α)
    (m : List (String × α)) (h : k' ≠ k) :
    alistLookup k' (alistInsert k v m) = alistLookup k' m := by
  induction m with
  | nil =>
    simp only [alistInsert, alistLookup]
    rw [if_neg (fun hh : k = k' => h hh.symm)]
  | cons p rest ih =>
    rw [alistInsert]
    by_cases hk : p.1 = k
    · rw [if_pos hk]
      rw [alistLookup, alistLookup, if_neg (fun hh => h hh.symm), if_neg]
      rw [hk]; exact fun hh => h hh.symm
    · rw [if_neg hk, alistLookup, alistLookup]
      by_cases hp : p.1 = k'
      · rw [if_pos hp, if_pos hp]
      · rw [if_neg hp, if_neg hp, ih]

theorem refill_current (σ : List String → List String) (q : Queue) :
    (q.refill σ).current = q.current := by
  rw [Queue.refill]
  split <;> rfl

theorem refill_size (σ : List String → List String) (q : Queue) :
    (q.refill σ).size = q.size := by
  rw [Queue.refill]
  split <;> rfl

theorem refill_sorting (σ : List String → List String) (q : Queue) :
    (q.refill σ).sorting = q.sorting := by
  rw [Queue.refill]
  split <;> rfl

theorem next_fst_size (σ : List String → List String) (q : Queue) :
    (q.next σ).1.size = q.size := by
  rw [Queue.next]
  split
  · exact refill_size σ _
  · exact refill_size σ _

theorem next_fst_sorting (σ : List String → List String) (q : Queue) :
    (q.next σ).1.sorting = q.sorting := by
  rw [Queue.next]
  split
  · exact refill_sorting σ _
  · exact refill_sorting σ _

theorem next_snd_eq_current (σ : List String → List String) (q : Queue) :
    (q.next σ).2 = (q.next σ).1.current := rfl

theorem headToList_append_tail_append {α : Type} (l m : List α) :
    l.head?.toList ++ (l.tail ++ m) = l ++ m := by
  rw [← List.append_assoc, headToList_append_tail]

theorem push_current_get_all (q : Queue) :
    ({ q with tail := q.tail ++ q.current.toList, current := q.buffer.head?,
              buffer := q.buffer.tail } : Queue).get_all_images = q.get_all_images := by
  simp [Queue.get_all_images, List.append_assoc, headToList_append_tail_append]

theorem pop_buffer_get_all (q : Queue) (h : q.current = none) :
    ({ q with current := q.buffer.head?, buffer := q.buffer.tail } : Queue).get_all_images
      = q.get_all_images := by
  simp [Queue.get_all_images, h, List.append_assoc, headToList_append_tail_append]

theorem next_decomp (σ : List String → List String) (q : Queue) :
    (q.next σ).1 =
      (fun q2 : Queue =>
        if q2.current.isNone && !q2.buffer.isEmpty then
          { q2 with current := q2.buffer.head?, buffer := q2.buffer.tail }
        else q2)
      (Queue.refill σ
        { q with tail := q.tail ++ q.current.toList, current := q.buffer.head?,
                 buffer := q.buffer.tail }) := rfl

theorem refill_get_all_perm (σ : List String → List String)
    (hσ : ∀ l, List.Perm (σ l) l) (q : Queue) :
    List.Perm ((q.refill σ).get_all_images) q.get_all_images := by
  rw [Queue.refill]
  split
  case isTrue h =>
    simp only [Bool.and_eq_true, List.isEmpty_iff, Bool.not_eq_true'] at h
    obtain ⟨⟨h1, h2⟩, h3⟩ := h
    have hbi : q.buffer ++ q.images = [] := by
      rw [← fillFrom_append q.size q.buffer q.images, h1, h2]
      rfl
    have hb : q.buffer = [] := (List.append_eq_nil.mp hbi).1
    have hi : q.images = [] := (List.append_eq_nil.mp hbi).2
    simp only [Queue.get_all_images, hb, hi, List.nil_append, List.append_nil,
      List.append_assoc, fillFrom_append]
    exact (List.Perm.append_left _ (sortImages_perm σ hσ _ _)).trans
      List.perm_append_comm
  case isFalse h =>
    simp only [Queue.get_all_images, List.append_assoc, fillFrom_append]
    exact List.Perm.refl _

theorem next_get_all_perm (σ : List String → List String)
    (hσ : ∀ l, List.Perm (σ l) l) (q : Queue) :
    List.Perm ((q.next σ).1.get_all_images) q.get_all_images := by
  rw [next_decomp]
  have base :
      List.Perm ((Queue.refill σ
        { q with tail := q.tail ++ q.current.toList, current := q.buffer.head?,
                 buffer := q.buffer.tail }).get_all_images) q.get_all_images := by
    refine (refill_get_all_perm σ hσ _).trans ?_
    rw [push_current_get_all q]
  generalize hq2 : Queue.refill σ
    { q with tail := q.tail ++ q.current.toList, current := q.buffer.head?,
             buffer := q.buffer.tail } = q2 at base
  show List.Perm ((if q2.current.isNone && !q2.buffer.isEmpty then
      { q2 with current := q2.buffer.head?, buffer := q2.buffer.tail }
    else q2) : Queue).get_all_images q.get_all_images
  split
  case isTrue h =>
    simp only [Bool.and_eq_true, Option.isNone_iff_eq_none] at h
    rw [pop_buffer_get_all q2 h.1]
    exact base
  case isFalse h => exact base

theorem take_ne_nil_of_pos {α : Type} (s : Nat) (l : List α)
    (hs : 1 ≤ s) (hl : l ≠ []) : l.take s ≠ [] := by
  cases s with
  | zero => omega
  | succ n => cases l with
    | nil => exact absurd rfl hl
    | cons x xs => simp [List.take_succ_cons]

theorem ne_nil_of_perm_ne_nil {α : Type} {l l' : List α}
    (h : List.Perm l l') (hl : l' ≠ []) : l ≠ [] := by
  intro e
  apply hl
  have := h.length_eq
  rw [e] at this
  exact List.eq_nil_of_length_eq_zero this.symm

theorem refill_buffer_ne_nil (σ : List String → List String)
    (hσ : ∀ l, List.Perm (σ l) l) (q : Queue) (hs : 1 ≤ q.size)
    (hb : q.buffer = []) (hne : q.images ≠ [] ∨ q.tail ≠ []) :
    (q.refill σ).buffer ≠ [] := by
  rw [Queue.refill]
  split
  case isTrue h =>
    simp only [Bool.and_eq_true, List.isEmpty_iff, Bool.not_eq_true'] at h
    obtain ⟨⟨h1, h2⟩, h3⟩ := h
    have ht : q.tail ≠ [] := by
      intro e
      rw [e] at h3
      simp at h3
    have key := take_ne_nil_of_pos q.size (sortImages σ q.sorting q.tail) hs
      (ne_nil_of_perm_ne_nil (sortImages_perm σ hσ _ _) ht)
    show (fillFrom q.size [] (sortImages σ q.sorting q.tail)).1 ≠ []
    rw [fillFrom_eq]
    simpa using key
  case isFalse h =>
    show (fillFrom q.size q.buffer q.images).1 ≠ []
    cases hi : q.images with
    | cons i is =>
      have key := take_ne_nil_of_pos q.size (i :: is) hs (by simp)
      rw [fillFrom_eq, hb]
      simpa using key
    | nil =>
      exfalso
      apply h
      rw [hb, hi]
      have ht : q.tail ≠ [] := by
        cases hne with
        | inl hh => exact absurd hi hh
        | inr hh => exact hh
      simp [fillFrom, ht]

theorem ifpop_current_isSome (q2 : Queue)
    (h : q2.current = none → q2.buffer ≠ []) :
    ((if q2.current.isNone && !q2.buffer.isEmpty then
        { q2 with current := q2.buffer.head?, buffer := q2.buffer.tail }
      else q2) : Queue).current.isSome = true := by
  cases hc : q2.current with
  | some x => rw [if_neg (by simp [hc])]; simp [hc]
  | none =>
    have hbuf := h hc
    rw [if_pos (by simp [hc, List.isEmpty_iff, hbuf])]
    show (q2.buffer.head?).isSome = true
    cases hbb : q2.buffer with
    | nil => exact absurd hbb hbuf
    | cons y ys => simp

theorem next_isSome (σ : List String → List String)
    (hσ : ∀ l, List.Perm (σ l) l) (q : Queue)
    (hs : 1 ≤ q.size) (hne : q.get_all_images ≠ []) :
    ((q.next σ).2).isSome = true := by
  rw [next_snd_eq_current, next_decomp]
  refine ifpop_current_isSome _ ?_
  intro hcur
  rw [refill_current] at hcur
  have hb : q.buffer = [] := by
    cases hbq : q.buffer with
    | nil => rfl
    | cons b bs =>
      exfalso
      rw [hbq] at hcur
      simp at hcur
  have hq1ne : q.images ≠ [] ∨ q.tail ++ q.current.toList ≠ [] := by
    cases hi : q.images with
    | cons i is => exact Or.inl (by simp)
    | nil =>
      refine Or.inr ?_
      intro e
      apply hne
      simp only [Queue.get_all_images, hb, hi, List.append_nil]
      have e2 := List.append_eq_nil.mp e
      rw [e2.1, e2.2]
      rfl
  exact refill_buffer_ne_nil σ hσ _ (by simpa using hs) (by simp [hb]) hq1ne

theorem advanceIter_size (σ : List String → List String) (q : Queue) (k : Nat) :
    (Queue.advanceIter σ q k).size = q.size := by
  induction k with
  | zero => rfl
  | succ n ih => rw [Queue.advanceIter, next_fst_size, ih]

theorem advanceIter_get_all_perm (σ : List String → List String)
    (hσ : ∀ l, List.Perm (σ l) l) (q : Queue) (k : Nat) :
    List.Perm ((Queue.advanceIter σ q k).get_all_images) q.get_all_images := by
  induction k with
  | zero => exact List.Perm.refl _
  | succ n ih => exact (next_get_all_perm σ hσ _).trans ih

/-! ## The first rotation cycle of a freshly created queue -/

theorem refill_of_tail_nil (σ : List String → List String) (q : Queue)
    (h : q.tail = []) :
    q.refill σ = { q with buffer := (fillFrom q.size q.buffer q.images).1,
                          images := (fillFrom q.size q.buffer q.images).2 } := by
  rw [Queue.refill]
  rw [if_neg]
  simp [h]

theorem new_epoch (σ : List String → List String)
    (hσ : ∀ l, List.Perm (σ l) l) (s : Nat) (srt : Sorting)
    (images : List String) (q : Queue)
    (h : Queue.new σ s srt images = some q) :
    EpochState s (sortImages σ srt images) 0 q := by
  rw [Queue.new] at h
  split at h
  · exact absurd h (by simp)
  case isFalse hni =>
    have himg : images ≠ [] := by
      simpa [List.isEmpty_iff] using hni
    have hL : sortImages σ srt images ≠ [] :=
      ne_nil_of_perm_ne_nil (sortImages_perm σ hσ srt images) himg
    injection h with h
    subst h
    rw [Queue.initializeImages]
    dsimp only
    cases hsrt : sortImages σ srt images with
    | nil => exact absurd hsrt hL
    | cons x rest =>
      rw [refill_of_tail_nil σ _ rfl]
      refine ⟨rfl, by simp, ?_, ?_, rfl⟩
      · show (fillFrom s [] rest).1 = ((x :: rest).drop 1).take s
        rw [fillFrom_eq]
        simp
      · show (fillFrom s [] rest).2 = ((x :: rest).drop 1).drop s
        rw [fillFrom_eq]
        simp

theorem epoch_get_all (s : Nat) (L : List String) (k : Nat) (q : Queue)
    (hq : EpochState s L k q) : q.get_all_images = L := by
  obtain ⟨ht, hc, hb, hi, _⟩ := hq
  rw [Queue.get_all_images, ht, hc, hb, hi]
  rw [List.append_assoc, List.append_assoc, List.take_append_drop,
    ← List.append_assoc, ← List.take_succ, List.take_append_drop]

theorem epoch_step_current (σ : List String → List String) (s : Nat)
    (L : List String) (k : Nat) (q : Queue) (hs : 1 ≤ s)
    (hq : EpochState s L k q) (hk1 : k + 1 < L.length) :
    (q.next σ).1.current = L[k + 1]? := by
  obtain ⟨ht, hc, hb, hi, hsz⟩ := hq
  have hy : L[k + 1]? = some (L.get ⟨k + 1, hk1⟩) := by
    rw [List.getElem?_eq_getElem hk1]
    rfl
  have hdrop : L.drop (k + 1) = L.get ⟨k + 1, hk1⟩ :: L.drop (k + 2) :=
    List.drop_eq_getElem_cons hk1
  obtain ⟨t, hst⟩ : ∃ t, s = t + 1 := ⟨s - 1, by omega⟩
  have hbuf : q.buffer = L.get ⟨k + 1, hk1⟩ :: (L.drop (k + 2)).take t := by
    rw [hb, hdrop, hst, List.take_succ_cons]
  have hq2cur : (Queue.refill σ
      { q with tail := q.tail ++ q.current.toList, current := q.buffer.head?,
               buffer := q.buffer.tail }).current = some (L.get ⟨k + 1, hk1⟩) := by
    rw [refill_current]
    show q.buffer.head? = _
    rw [hbuf]
    rfl
  rw [next_decomp]
  dsimp only
  rw [if_neg (by simp [hq2cur])]
  rw [hq2cur, hy]

theorem epoch_step (σ : List String → List String) (s : Nat)
    (L : List String) (k : Nat) (q : Queue) (hs : 1 ≤ s)
    (hq : EpochState s L k q) (hk2 : k + 2 < L.length) :
    EpochState s L (k + 1) ((q.next σ).1) := by
  obtain ⟨ht, hc, hb, hi, hsz⟩ := hq
  have hk1 : k + 1 < L.length := by omega
  have hy : L[k + 1]? = some (L.get ⟨k + 1, hk1⟩) := by
    rw [List.getElem?_eq_getElem hk1]
    rfl
  have hdrop : L.drop (k + 1) = L.get ⟨k + 1, hk1⟩ :: L.drop (k + 2) :=
    List.drop_eq_getElem_cons hk1
  obtain ⟨t, hst⟩ : ∃ t, s = t + 1 := ⟨s - 1, by omega⟩
  have hbuf : q.buffer = L.get ⟨k + 1, hk1⟩ :: (L.drop (k + 2)).take t := by
    rw [hb, hdrop, hst, List.take_succ_cons]
  have himg2 : q.images = (L.drop (k + 2)).drop t := by
    rw [hi, hdrop, hst, List.drop_succ_cons]
  have hfne : L.drop (k + 2) ≠ [] := by
    intro e
    have hlen := congrArg List.length e
    rw [List.length_drop] at hlen
    simp at hlen
    omega
  have hfill : fillFrom s ((L.drop (k + 2)).take t) ((L.drop (k + 2)).drop t)
      = ((L.drop (k + 2)).take s, (L.drop (k + 2)).drop s) := by
    rw [fillFrom_eq]
    by_cases hle : (L.drop (k + 2)).length ≤ t
    · rw [List.take_of_length_le hle, List.drop_of_length_le hle,
        List.take_of_length_le (le_trans hle (by omega)),
        List.drop_of_length_le (le_trans hle (by omega))]
      simp
    · have hlt : ((L.drop (k + 2)).take t).length = t := by
        rw [List.length_take]
        omega
      rw [hlt, hst]
      have h1 : t + 1 - t = 1 := by omega
      rw [h1, ← List.take_add]
      have h2 : ((L.drop (k + 2)).drop t).drop 1 = (L.drop (k + 2)).drop (t + 1) :=
        List.drop_drop 1 t _
      rw [h2]
  have htail1 : q.tail ++ q.current.toList = L.take (k + 1) := by
    rw [ht, hc, ← List.take_succ]
  have hbt : q.buffer.tail = (L.drop (k + 2)).take t := by
    rw [hbuf]
    rfl
  have hbh : q.buffer.head? = some (L.get ⟨k + 1, hk1⟩) := by
    rw [hbuf]
    rfl
  have hrefill : Queue.refill σ
      { q with tail := q.tail ++ q.current.toList, current := q.buffer.head?,
               buffer := q.buffer.tail }
      = { q with tail := L.take (k + 1), current := some (L.get ⟨k + 1, hk1⟩),
                 buffer := (L.drop (k + 2)).take s,
                 images := (L.drop (k + 2)).drop s } := by
    rw [Queue.refill]
    dsimp only
    rw [hbt, himg2, hsz, hfill]
    rw [if_neg (by simp [List.isEmpty_iff, take_ne_nil_of_pos s _ hs hfne])]
    rw [hbh, htail1]
  rw [next_decomp]
  dsimp only
  rw [hrefill]
  rw [if_neg (by simp)]
  exact ⟨rfl, by rw [hy], rfl, rfl, hsz⟩

theorem advanceIter_epoch (σ : List String → List String) (s : Nat)
    (L : List String) (q : Queue) (hs : 1 ≤ s) (h0 : EpochState s L 0 q) :
    ∀ k, k + 1 < L.length → EpochState s L k (Queue.advanceIter σ q k) := by
  intro k
  induction k with
  | zero => intro _; exact h0
  | succ n ih =>
    intro hn
    show EpochState s L (n + 1) ((Queue.advanceIter σ q n).next σ).1
    exact epoch_step σ s L n _ hs (ih (by omega)) (by omega)

theorem advanceIter_current (σ : List String → List String) (s : Nat)
    (L : List String) (q : Queue) (hs : 1 ≤ s) (h0 : EpochState s L 0 q) :
    ∀ k, k < L.length → (Queue.advanceIter σ q k).current = L[k]? := by
  intro k hk
  cases k with
  | zero => exact h0.2.1
  | succ n =>
    show ((Queue.advanceIter σ q n).next σ).1.current = L[n + 1]?
    exact epoch_step_current σ s L n _ hs
      (advanceIter_epoch σ s L q hs h0 n (by omega)) hk

end Swwws

namespace Swwws

/-! ## Dispatcher and tick lemmas -/

theorem ifpop_tail (q2 : Queue) :
    ((if q2.current.isNone && !q2.buffer.isEmpty then
        { q2 with current := q2.buffer.head?, buffer := q2.buffer.tail }
      else q2) : Queue).tail = q2.tail := by
  split <;> rfl

theorem refill_tail_of_not_restart (σ : List String → List String) (q : Queue)
    (h : (fillFrom q.size q.buffer q.images).1 ++
         (fillFrom q.size q.buffer q.images).2 ≠ []) :
    (q.refill σ).tail = q.tail := by
  rw [Queue.refill]
  split
  case isTrue hcond =>
    exfalso
    simp only [Bool.and_eq_true, List.isEmpty_iff, Bool.not_eq_true'] at hcond
    apply h
    rw [hcond.1.1, hcond.1.2]
    rfl
  case isFalse hcond => rfl

theorem handle_next_for_output_isolated (σ : List String → List String)
    (now : Nat) (st : DaemonState) (o o' : String) (hne : o' ≠ o) :
    (handle_next_for_output σ now st o).1.shared_queue = st.shared_queue ∧
    (handle_next_for_output σ now st o).1.shared_timer = st.shared_timer ∧
    (handle_next_for_output σ now st o).1.groups = st.groups ∧
    (handle_next_for_output σ now st o).1.paused = st.paused ∧
    (handle_next_for_output σ now st o).1.persistent = st.persistent ∧
    alistLookup o' (handle_next_for_output σ now st o).1.queues =
      alistLookup o' st.queues ∧
    alistLookup o' (handle_next_for_output σ now st o).1.timers =
      alistLookup o' st.timers ∧
    (∀ p ∈ (handle_next_for_output σ now st o).2, p.1 = o) := by
  rw [handle_next_for_output]
  cases hq : alistLookup o st.queues with
  | none => exact ⟨rfl, rfl, rfl, rfl, rfl, rfl, rfl, by simp⟩
  | some q =>
    dsimp only
    cases hr : (q.next σ).2 with
    | none =>
      refine ⟨rfl, rfl, rfl, rfl, rfl, ?_, rfl, by simp⟩
      exact alistLookup_insert_ne o o' _ _ hne
    | some img =>
      refine ⟨rfl, rfl, rfl, rfl, rfl, ?_, ?_, ?_⟩
      · exact alistLookup_insert_ne o o' _ _ hne
      · exact alistLookup_insert_ne o o' _ _ hne
      · intro p hp
        simp only [List.mem_singleton] at hp
        rw [hp]

theorem handle_previous_for_output_isolated (now : Nat) (st : DaemonState)
    (o o' : String) (hne : o' ≠ o) :
    (handle_previous_for_output now st o).1.shared_queue = st.shared_queue ∧
    (handle_previous_for_output now st o).1.shared_timer = st.shared_timer ∧
    (handle_previous_for_output now st o).1.groups = st.groups ∧
    (handle_previous_for_output now st o).1.paused = st.paused ∧
    (handle_previous_for_output now st o).1.persistent = st.persistent ∧
    alistLookup o' (handle_previous_for_output now st o).1.queues =
      alistLookup o' st.queues ∧
    alistLookup o' (handle_previous_for_output now st o).1.timers =
      alistLookup o' st.timers ∧
    (∀ p ∈ (handle_previous_for_output now st o).2, p.1 = o) := by
  rw [handle_previous_for_output]
  cases hq : alistLookup o st.queues with
  | none => exact ⟨rfl, rfl, rfl, rfl, rfl, rfl, rfl, by simp⟩
  | some q =>
    dsimp only
    cases hr : q.previous.2 with
    | none =>
      refine ⟨rfl, rfl, rfl, rfl, rfl, ?_, rfl, by simp⟩
      exact alistLookup_insert_ne o o' _ _ hne
    | some img =>
      refine ⟨rfl, rfl, rfl, rfl, rfl, ?_, ?_, ?_⟩
      · exact alistLookup_insert_ne o o' _ _ hne
      · exact alistLookup_insert_ne o o' _ _ hne
      · intro p hp
        simp only [List.mem_singleton] at hp
        rw [hp]

theorem handle_reload_checked_rejects (σ : List String → List String)
    (env : Env) (st : DaemonState) (cfg : Config)
    (h : env.swwwDaemonOk = false ∨ env.swwwOutputs = .ok [] ∨
      (∃ e, env.swwwOutputs = .error e)) :
    (handle_reload_checked σ env st cfg).1 = st ∧
    (∃ m, (handle_reload_checked σ env st cfg).2.1 = .error m) ∧
    (handle_reload_checked σ env st cfg).2.2 = [] := by
  rw [handle_reload_checked]
  split
  case isTrue hcond => exact ⟨rfl, ⟨_, rfl⟩, rfl⟩
  case isFalse hcond =>
    rcases h with h | h | ⟨e, h⟩
    · exfalso
      apply hcond
      rw [h]
      rfl
    · rw [h]
      exact ⟨rfl, ⟨_, rfl⟩, rfl⟩
    · rw [h]
      exact ⟨rfl, ⟨_, rfl⟩, rfl⟩

end Swwws

namespace Swwws

/-! ## Claim theorems -/

/-- C1: the spec's invariant — the union of {history, current, buffer,
pool} equals the discovered image set across every operation — fails at
`Queue::set_position`: on a fresh three-image ascending queue of
capacity 2, `set_position(1)` leaves the queue holding no images at all
(the cleared current/buffer/history are never returned to the pool). -/
theorem C1_set_position_loses_images :
    ((Queue.new id 2 Sorting.ascending ["/w/a.jpg", "/w/b.jpg", "/w/c.jpg"]).map
      (fun q => (q.set_position id 1).1.get_all_images)) = some [] ∧
    ¬ List.Perm ([] : List String) ["/w/a.jpg", "/w/b.jpg", "/w/c.jpg"] := by
  constructor
  · decide
  · intro h
    simpa using h.length_eq

/-- C2 counterexample: with capacity 0 — which the claim says is coerced
so that advance still works — a single-image queue's advance returns
none, and returns none again on the following advance: the queue is
permanently empty. -/
theorem C2_counterexample_capacity_zero :
    ((Queue.new id 0 Sorting.ascending ["/w/a.jpg"]).map
      (fun q => ((q.next id).2, ((q.next id).1.next id).2))) = some (none, none) := by
  decide

/-- C2 (amended): for a queue created with capacity ≥ 1 from a non-empty
image set, under any sorting mode (the random shuffle oracle returning a
permutation), every advance returns a current image, and within the
first `images.length` states every image of the set has been current. -/
theorem C2_advance_liveness_and_coverage
    (σ : List String → List String) (hσ : ∀ l, List.Perm (σ l) l)
    (s : Nat) (hs : 1 ≤ s) (srt : Sorting) (images : List String)
    (q : Queue) (hq : Queue.new σ s srt images = some q) :
    (∀ k, (((Queue.advanceIter σ q k).next σ).2).isSome = true) ∧
    (∀ x ∈ images, ∃ k, k < images.length ∧
      (Queue.advanceIter σ q k).current = some x) := by
  have h0 := new_epoch σ hσ s srt images q hq
  have himg : images ≠ [] := by
    intro e
    rw [e, Queue.new] at hq
    simp at hq
  have hperm := sortImages_perm σ hσ srt images
  have hgall : q.get_all_images = sortImages σ srt images := epoch_get_all s _ 0 q h0
  have hLne : sortImages σ srt images ≠ [] := ne_nil_of_perm_ne_nil hperm himg
  have hsize : q.size = s := h0.2.2.2.2
  constructor
  · intro k
    apply next_isSome σ hσ _ (by rw [advanceIter_size, hsize]; exact hs)
    apply ne_nil_of_perm_ne_nil (advanceIter_get_all_perm σ hσ q k)
    rw [hgall]
    exact hLne
  · intro x hx
    have hxL : x ∈ sortImages σ srt images := hperm.mem_iff.mpr hx
    obtain ⟨k, hkN, hkx⟩ := List.getElem_of_mem hxL
    refine ⟨k, by rw [← hperm.length_eq]; exact hkN, ?_⟩
    rw [advanceIter_current σ s _ q hs h0 k hkN,
      List.getElem?_eq_getElem hkN, hkx]

/-- C2 witness: the amended theorem at a concrete two-image ascending
queue of capacity 1. -/
theorem C2_advance_liveness_and_coverage_witness :
    (∀ k, (((Queue.advanceIter id
        { buffer := ["/w/b.jpg"], current := some "/w/a.jpg", tail := [],
          size := 1, sorting := Sorting.ascending, images := [] } k).next id).2).isSome
        = true) ∧
    (∀ x ∈ ["/w/a.jpg", "/w/b.jpg"],
      ∃ k, k < (["/w/a.jpg", "/w/b.jpg"] : List String).length ∧
        (Queue.advanceIter id
          { buffer := ["/w/b.jpg"], current := some "/w/a.jpg", tail := [],
            size := 1, sorting := Sorting.ascending, images := [] } k).current
          = some x) :=
  C2_advance_liveness_and_coverage id (fun l => List.Perm.refl l) 1 (by decide)
    Sorting.ascending ["/w/a.jpg", "/w/b.jpg"] _ (by decide)

/-- C3: the spec says `set_position(n)` succeeds for every `n` below the
total image count.  On a fresh three-image queue (capacity 2, ascending)
`set_position(1)` returns false although `1 < 3`: the code measures `n`
against the remaining pool (empty here), not against the image set. -/
theorem C3_seek_fails_below_total :
    1 < (["/w/a.jpg", "/w/b.jpg", "/w/c.jpg"] : List String).length ∧
    ((Queue.new id 2 Sorting.ascending ["/w/a.jpg", "/w/b.jpg", "/w/c.jpg"]).map
      (fun q => (q.set_position id 1).2)) = some false := by
  exact ⟨by decide, by decide⟩

/-- C4: restart reconciliation for an Ascending snapshot
`{images = [a,b,c], position = 1, queue_size = 3}` with the identical
discovered set does NOT restore current image `b`: `set_position(1)` fails
(the fresh queue's pool is empty), restore returns false, and the daemon
starts fresh at `a`.  The removed-image scenario also starts fresh at `a`
(that half of the claim holds). -/
theorem C4_restore_starts_fresh_not_at_position :
    (restore_queue_from_state id 100 stC4 "DP-1"
      ["/w/a.jpg", "/w/b.jpg", "/w/c.jpg"]).2 = false ∧
    ((alistLookup "DP-1"
        (initialize_output_queue_sync id envC4 cfgAsc stC4 "DP-1").1.queues).map
      Queue.current_image) = some (some "/w/a.jpg") ∧
    ((alistLookup "DP-1"
        (initialize_output_queue_sync id envC4b cfgAsc stC4 "DP-1").1.queues).map
      Queue.current_image) = some (some "/w/a.jpg") := by
  exact ⟨by decide, by decide, by decide⟩

/-- C5 counterexample: in a paused tick with the periodic save due
(save counter 29 → 30), no save happens — contradicting the claim that
persistence still executes on schedule while paused.  The same tick
unpaused does save. -/
theorem C5_counterexample_paused_save_skipped :
    (tick id ctxC5 stC5 ⟨29, 0⟩).2.2 =
      { livenessChecked := false, wallpapers := [], saved := false } ∧
    (tick id ctxC5 { stC5 with paused := false } ⟨29, 0⟩).2.2.saved = true := by
  exact ⟨by decide, by decide⟩

/-- C5 (amended): a tick taken while paused (lock obtained, external
service alive) skips both the rotation check and the periodic save and
mutates nothing — the save counter keeps accruing — while the liveness
check still runs on its 30-tick schedule. -/
theorem C5_paused_tick_skips_rotation_and_save
    (σ : List String → List String) (ctx : TickCtx) (st : DaemonState)
    (c : LoopCounters) (hp : st.paused = true) (hl : ctx.lockOk = true)
    (hok : ctx.swwwOk = true) :
    (tick σ ctx st c).1 = st ∧
    (tick σ ctx st c).2.2.wallpapers = [] ∧
    (tick σ ctx st c).2.2.saved = false ∧
    (tick σ ctx st c).2.1.saveCounter = c.saveCounter + 1 ∧
    (tick σ ctx st c).2.2.livenessChecked = decide (30 ≤ c.swwwCheckCounter + 1) := by
  rw [tick]
  simp [hp, hl, hok]

/-- C5 witness: the amended theorem at the concrete paused fixture with
the save due. -/
theorem C5_paused_tick_skips_rotation_and_save_witness :
    (tick id ctxC5 stC5 ⟨29, 0⟩).1 = stC5 ∧
    (tick id ctxC5 stC5 ⟨29, 0⟩).2.2.wallpapers = [] ∧
    (tick id ctxC5 stC5 ⟨29, 0⟩).2.2.saved = false ∧
    (tick id ctxC5 stC5 ⟨29, 0⟩).2.1.saveCounter = 29 + 1 ∧
    (tick id ctxC5 stC5 ⟨29, 0⟩).2.2.livenessChecked = decide (30 ≤ 0 + 1) :=
  C5_paused_tick_skips_rotation_and_save id ctxC5 stC5 ⟨29, 0⟩ rfl rfl rfl

/-- C6: a Reload whose freshly loaded configuration has effective
behavior Grouped with zero groups, or that finds the external service
unreachable, or that cannot enumerate any output, returns an Error and
leaves the daemon state untouched with no wallpaper calls issued. -/
theorem C6_reload_rejection_preserves_state
    (σ : List String → List String) (env : Env) (st : DaemonState) (cfg : Config)
    (hcfg : env.configLoad = .ok cfg)
    (hrej : cfg.get_effective_monitor_behavior = .grouped [] ∨
      env.swwwDaemonOk = false ∨ env.swwwOutputs = .ok [] ∨
      (∃ e, env.swwwOutputs = .error e)) :
    (handle_ipc_command σ env st .reload).1 = st ∧
    (∃ m, (handle_ipc_command σ env st .reload).2.1 = .error m) ∧
    (handle_ipc_command σ env st .reload).2.2 = [] := by
  rw [handle_ipc_command, hcfg]
  dsimp only
  cases hbeh : cfg.get_effective_monitor_behavior with
  | grouped groups =>
    cases groups with
    | nil => exact ⟨rfl, ⟨_, rfl⟩, rfl⟩
    | cons g gs =>
      have hrej2 : env.swwwDaemonOk = false ∨ env.swwwOutputs = .ok [] ∨
          (∃ e, env.swwwOutputs = .error e) := by
        rcases hrej with h | h | h | h
        · rw [hbeh] at h
          exact absurd h (by simp)
        · exact Or.inl h
        · exact Or.inr (Or.inl h)
        · exact Or.inr (Or.inr h)
      simpa using handle_reload_checked_rejects σ env st cfg hrej2
  | independent =>
    have hrej2 : env.swwwDaemonOk = false ∨ env.swwwOutputs = .ok [] ∨
        (∃ e, env.swwwOutputs = .error e) := by
      rcases hrej with h | h | h | h
      · rw [hbeh] at h
        exact absurd h (by simp)
      · exact Or.inl h
      · exact Or.inr (Or.inl h)
      · exact Or.inr (Or.inr h)
    exact handle_reload_checked_rejects σ env st cfg hrej2
  | synchronized =>
    have hrej2 : env.swwwDaemonOk = false ∨ env.swwwOutputs = .ok [] ∨
        (∃ e, env.swwwOutputs = .error e) := by
      rcases hrej with h | h | h | h
      · rw [hbeh] at h
        exact absurd h (by simp)
      · exact Or.inl h
      · exact Or.inr (Or.inl h)
      · exact Or.inr (Or.inr h)
    exact handle_reload_checked_rejects σ env st cfg hrej2

/-- C6 witness: Reload rejected on a Grouped-with-zero-groups config. -/
theorem C6_reload_rejection_preserves_state_witness :
    (handle_ipc_command id { envOk with configLoad := .ok cfgGroupedEmpty }
      stC9 .reload).1 = stC9 ∧
    (∃ m, (handle_ipc_command id { envOk with configLoad := .ok cfgGroupedEmpty }
      stC9 .reload).2.1 = .error m) ∧
    (handle_ipc_command id { envOk with configLoad := .ok cfgGroupedEmpty }
      stC9 .reload).2.2 = [] :=
  C6_reload_rejection_preserves_state id _ stC9 cfgGroupedEmpty rfl (Or.inl rfl)

/-- C7 counterexample: on a single-image queue (history empty), retreat
returns none as claimed, but the current image does NOT persist: it is
moved to the buffer front and `current` becomes none. -/
theorem C7_counterexample_retreat_drops_current :
    ((Queue.new id 1 Sorting.ascending ["/w/a.jpg"]).map
      (fun q => (q.current_image, q.previous.2, q.previous.1.current_image))) =
      some (some "/w/a.jpg", none, none) := by
  decide

/-- C7 (amended): retreat on an exhausted history returns none, moves the
old current to the buffer front leaving no current image, keeps history
empty and the pool untouched — no restart logic runs. -/
theorem C7_retreat_empty_history (q : Queue) (h : q.tail = []) :
    q.previous.2 = none ∧ q.previous.1.current = none ∧
    q.previous.1.buffer = q.current.toList ++ q.buffer ∧
    q.previous.1.tail = [] ∧ q.previous.1.images = q.images := by
  rw [Queue.previous]
  refine ⟨?_, ?_, rfl, ?_, rfl⟩ <;> simp [h]

/-- C7 witness: the amended theorem at a concrete fresh queue. -/
theorem C7_retreat_empty_history_witness :
    queueAsc3.previous.2 = none ∧ queueAsc3.previous.1.current = none ∧
    queueAsc3.previous.1.buffer = queueAsc3.current.toList ++ queueAsc3.buffer ∧
    queueAsc3.previous.1.tail = [] ∧ queueAsc3.previous.1.images = queueAsc3.images :=
  C7_retreat_empty_history queueAsc3 rfl

/-- C8 counterexample: on the two-image ascending queue of capacity 1 the
buffer is non-empty before the advance (the claim's "no restart boundary"
condition), yet advance-then-retreat yields none instead of restoring the
prior current `a` — the advance consumed the last unshown image and
recycled the history. -/
theorem C8_counterexample_hidden_restart :
    ((Queue.new id 1 Sorting.ascending ["/w/a.jpg", "/w/b.jpg"]).map
      (fun q => (q.buffer, q.current_image, ((q.next id).1.previous).2))) =
      some (["/w/b.jpg"], some "/w/a.jpg", none) := by
  decide

/-- C8 (amended): advance followed immediately by retreat restores the
prior current image whenever the advance cannot trigger the restart:
the pool is non-empty, or at least two images remain in the buffer. -/
theorem C8_advance_retreat_inverse (σ : List String → List String)
    (q : Queue) (c : String) (hc : q.current = some c)
    (h : q.images ≠ [] ∨ 2 ≤ q.buffer.length) :
    ((q.next σ).1.previous).2 = some c := by
  have htail : (q.next σ).1.tail = q.tail ++ [c] := by
    rw [next_decomp]
    dsimp only
    rw [ifpop_tail, refill_tail_of_not_restart]
    · show q.tail ++ q.current.toList = q.tail ++ [c]
      rw [hc]
      rfl
    · show (fillFrom q.size q.buffer.tail q.images).1 ++
        (fillFrom q.size q.buffer.tail q.images).2 ≠ []
      rw [fillFrom_append]
      intro e
      cases h with
      | inl hi => exact hi (List.append_eq_nil.mp e).2
      | inr hb =>
        have e1 := (List.append_eq_nil.mp e).1
        have hlen := congrArg List.length e1
        simp only [List.length_tail, List.length_nil] at hlen
        omega
  show ((q.next σ).1.tail).getLast? = some c
  rw [htail, List.getLast?_concat]

/-- C8 witness: the amended theorem at a three-image queue with two
buffered images. -/
theorem C8_advance_retreat_inverse_witness :
    ((queueAsc3.next id).1.previous).2 = some "/w/a.jpg" :=
  C8_advance_retreat_inverse id queueAsc3 "/w/a.jpg" rfl (Or.inr (by decide))

/-- C9: a Next or Previous IPC request naming a specific output touches
only that output's queue, timer and wallpaper: the shared queue and
timer, the groups, the pause flag, the persisted snapshot, and every
other output's queue and timer are unchanged, and every wallpaper call
targets the named output. -/
theorem C9_targeted_next_previous_isolated (σ : List String → List String)
    (env : Env) (st : DaemonState) (cfg : Config) (o o' : String)
    (hcfg : env.configLoad = .ok cfg) (hne : o' ≠ o) :
    ∀ r ∈ [handle_ipc_command σ env st (.next (some o)),
           handle_ipc_command σ env st (.previous (some o))],
      r.1.shared_queue = st.shared_queue ∧ r.1.shared_timer = st.shared_timer ∧
      r.1.groups = st.groups ∧ r.1.paused = st.paused ∧
      r.1.persistent = st.persistent ∧
      alistLookup o' r.1.queues = alistLookup o' st.queues ∧
      alistLookup o' r.1.timers = alistLookup o' st.timers ∧
      (∀ p ∈ r.2.2, p.1 = o) := by
  intro r hr
  rw [List.mem_cons, List.mem_cons] at hr
  rcases hr with rfl | rfl | hr
  · rw [handle_ipc_command, hcfg]
    exact handle_next_for_output_isolated σ env.now st o o' hne
  · rw [handle_ipc_command, hcfg]
    exact handle_previous_for_output_isolated env.now st o o' hne
  · exact absurd hr (by simp)

/-- C9 witness: the theorem at the two-output fixture, command targeting
output A, observer output B: for both targeted Next and targeted
Previous, the shared queue and output B's queue and timer are unchanged. -/
theorem C9_targeted_next_previous_isolated_witness :
    (handle_ipc_command id envOk stC9 (.next (some "A"))).1.shared_queue
        = stC9.shared_queue ∧
    alistLookup "B" (handle_ipc_command id envOk stC9 (.next (some "A"))).1.queues
        = alistLookup "B" stC9.queues ∧
    alistLookup "B" (handle_ipc_command id envOk stC9 (.next (some "A"))).1.timers
        = alistLookup "B" stC9.timers ∧
    (handle_ipc_command id envOk stC9 (.previous (some "A"))).1.shared_queue
        = stC9.shared_queue ∧
    alistLookup "B" (handle_ipc_command id envOk stC9 (.previous (some "A"))).1.queues
        = alistLookup "B" stC9.queues ∧
    alistLookup "B" (handle_ipc_command id envOk stC9 (.previous (some "A"))).1.timers
        = alistLookup "B" stC9.timers :=
  ⟨(C9_targeted_next_previous_isolated id envOk stC9 cfgAsc "A" "B" rfl (by decide) _
      (by simp)).1,
   (C9_targeted_next_previous_isolated id envOk stC9 cfgAsc "A" "B" rfl (by decide) _
      (by simp)).2.2.2.2.2.1,
   (C9_targeted_next_previous_isolated id envOk stC9 cfgAsc "A" "B" rfl (by decide) _
      (by simp)).2.2.2.2.2.2.1,
   (C9_targeted_next_previous_isolated id envOk stC9 cfgAsc "A" "B" rfl (by decide)
      (handle_ipc_command id envOk stC9 (.previous (some "A"))) (by simp)).1,
   (C9_targeted_next_previous_isolated id envOk stC9 cfgAsc "A" "B" rfl (by decide)
      (handle_ipc_command id envOk stC9 (.previous (some "A"))) (by simp)).2.2.2.2.2.1,
   (C9_targeted_next_previous_isolated id envOk stC9 cfgAsc "A" "B" rfl (by decide)
      (handle_ipc_command id envOk stC9 (.previous (some "A"))) (by simp)).2.2.2.2.2.2.1⟩

/-- C10: every IPC command loads the configuration first; when that load
fails the handler returns an Error response and the daemon state is
completely unchanged, with no wallpaper calls. -/
theorem C10_config_load_failure_no_mutation (σ : List String → List String)
    (env : Env) (st : DaemonState) (cmd : IpcCommand) (e : String)
    (h : env.configLoad = .error e) :
    handle_ipc_command σ env st cmd =
      (st, .error ("Failed to load config: " ++ e), []) := by
  rw [handle_ipc_command, h]

/-- C10 witness: a Status command under a failing config load. -/
theorem C10_config_load_failure_no_mutation_witness :
    handle_ipc_command id { envOk with configLoad := .error "boom" } stC9 .status =
      (stC9, .error ("Failed to load config: " ++ "boom"), []) :=
  C10_config_load_failure_no_mutation id _ stC9 .status "boom" rfl

end Swwws
